import Mathlib

/-!
Verification of the clinic bookings admin page
(`src/app/(admin)/admin/przychodnia/rezerwacje/page.tsx`).

The page is embedded shallowly: query-string values are `Option String`
(`none` models an absent parameter; an array-valued parameter fails every
`typeof x === "string"` test in the source exactly like an absent one),
JavaScript numbers that may be `NaN` are `Option Int` (`none` is `NaN`),
and the two drizzle queries are modelled as list filtering, sorting and
slicing over the rows of an explicit database value.  Text is compared
through `String.data` (`List Char`) so that every definition evaluates.
-/

/-- Digit characters to their numeric value, most significant first. -/
def digitsToNat (cs : List Char) : Nat :=
  cs.foldl (fun a c => a * 10 + (c.toNat - 48)) 0

/-- JavaScript `parseInt(s)`: skip leading whitespace, read an optional
sign and the longest digit run; `none` models `NaN` (no digits). -/
def jsParseInt (s : String) : Option Int :=
  let core : List Char → Int → Option Int := fun cs sign =>
    let ds := cs.takeWhile Char.isDigit
    if ds.isEmpty then none else some (sign * (digitsToNat ds : Int))
  match s.data.dropWhile Char.isWhitespace with
  | '-' :: rest => core rest (-1)
  | '+' :: rest => core rest 1
  | cs => core cs 1

/-- JavaScript `s.split(sep)` for a one-character separator, on char
lists: `"" ↦ [""]`, `"a.b" ↦ ["a", "b"]`, `"." ↦ ["", ""]`. -/
def splitOnChar (sep : Char) : List Char → List (List Char)
  | [] => [[]]
  | c :: rest =>
    let r := splitOnChar sep rest
    if c = sep then [] :: r
    else
      match r with
      | [] => [[c]]
      | g :: gs => (c :: g) :: gs

/-- Does `hay` start with `needle`? -/
def leadEq : List Char → List Char → Bool
  | [], _ => true
  | _ :: _, [] => false
  | a :: as, b :: bs => a == b && leadEq as bs

/-- Substring test: SQL `LIKE '%needle%'` on the raw character lists. -/
def hasSub (needle : List Char) : List Char → Bool
  | [] => needle.isEmpty
  | c :: rest => leadEq needle (c :: rest) || hasSub needle rest

/-- Lexicographic comparison of char lists by code point, the model of
the database collation used by `asc`/`desc` on text columns. -/
def charListLe : List Char → List Char → Bool
  | [], _ => true
  | _ :: _, [] => false
  | a :: as, b :: bs => if a = b then charListLe as bs else decide (a < b)

/-- Insert into a sorted list, keeping it sorted for comparator `le`. -/
def insertLe {α : Type} (le : α → α → Bool) (a : α) : List α → List α
  | [] => [a]
  | b :: bs => if le a b then a :: b :: bs else b :: insertLe le a bs

/-- Insertion sort: the model of the SQL `ORDER BY` on the result set. -/
def sortBy {α : Type} (le : α → α → Bool) : List α → List α
  | [] => []
  | a :: as => insertLe le a (sortBy le as)

/-- A clinic row: the columns this page selects (`id`, `userId`). -/
structure Clinic where
  id : Nat
  userId : String
deriving DecidableEq

/-- A booking row.  The schema file is outside this source tree; the
fields here are the ones this page reads: `id` and `clinicId` and the
filter/sort columns `lastName`, `email`, `type`, `createdAt` (a
timestamp, modelled as an integer). -/
structure Booking where
  id : Nat
  clinicId : Nat
  lastName : String
  email : String
  type : String
  createdAt : Int
deriving DecidableEq

/-- The relevant database state: the `clinics` and `bookings` tables. -/
structure Db where
  clinics : List Clinic
  bookings : List Booking
deriving DecidableEq

/-- The authenticated identity returned by `currentUser()`. -/
structure User where
  id : String
deriving DecidableEq

/-- The query-string parameters the page destructures.  `none` is an
absent (or array-valued) parameter.  `from`/`to` are keywords in Lean,
hence `fromParam`/`toParam`. -/
structure SearchParams where
  page : Option String := none
  per_page : Option String := none
  sort : Option String := none
  fromParam : Option String := none
  toParam : Option String := none
  lastName : Option String := none
  type : Option String := none
  date : Option String := none
  time : Option String := none
  slot : Option String := none
  email : Option String := none
deriving DecidableEq

/-- Line 60: `limit = typeof per_page === "string" ? parseInt(per_page) : 10`. -/
def limitOf (per_page : Option String) : Option Int :=
  match per_page with
  | some s => jsParseInt s
  | none => some 10

/-- Lines 62-67: the zero-based offset.  `parseInt(page) > 0` is false
for `NaN`, so a non-numeric page gives offset `0`; a positive page
multiplies by the (possibly `NaN`) limit. -/
def offsetOf (page : Option String) (limit : Option Int) : Option Int :=
  match page with
  | some s =>
    match jsParseInt s with
    | some p => if 0 < p then limit.map (fun l => (p - 1) * l) else some 0
    | none => some 0
  | none => some 0

/-- Lines 69-75: `[column, order] = sort.split(".")` (first two pieces). -/
def sortPair (sort : Option String) : Option (List Char) × Option (List Char) :=
  match sort with
  | some s => ((splitOnChar '.' s.data)[0]?, (splitOnChar '.' s.data)[1]?)
  | none => (none, none)

/-- Lines 77-78: `types = type.split(".")`, else the empty list. -/
def typesOf (type : Option String) : List (List Char) :=
  match type with
  | some s => splitOnChar '.' s.data
  | none => []

/-- Modelled from the spec: JavaScript `new Date(s)` lives in the runtime,
not in this repository.  A strict `YYYY-MM-DD` string becomes a day
index; anything else is an Invalid Date, modelled as `none`.  (The
object itself is truthy either way; validity only matters inside the
comparisons.) -/
def jsDateParse (s : String) : Option Int :=
  match splitOnChar '-' s.data with
  | [y, m, d] =>
    if y.length = 4 && m.length = 2 && d.length = 2
        && (y ++ m ++ d).all Char.isDigit then
      some ((digitsToNat y * 10000 + digitsToNat m * 100 + digitsToNat d : Nat) : Int)
    else none
  | _ => none

/-- The columns of the `bookings` table this embedding knows, as used by
the `column in bookings` membership test on line 116. -/
def bookingColumns : List (List Char) :=
  [("id" : String).data, ("clinicId" : String).data, ("lastName" : String).data,
   ("email" : String).data, ("type" : String).data, ("createdAt" : String).data]

/-- Ascending comparison by the named column. -/
def colLe (c : List Char) (a b : Booking) : Bool :=
  if c = ("id" : String).data then decide (a.id ≤ b.id)
  else if c = ("clinicId" : String).data then decide (a.clinicId ≤ b.clinicId)
  else if c = ("lastName" : String).data then charListLe a.lastName.data b.lastName.data
  else if c = ("email" : String).data then charListLe a.email.data b.email.data
  else if c = ("type" : String).data then charListLe a.type.data b.type.data
  else decide (a.createdAt ≤ b.createdAt)

/-- Lines 115-121: the `ORDER BY` comparator.  A truthy, recognized
column sorts by that column in the requested direction (`desc` unless
the order part is exactly `"asc"`); otherwise `desc(bookings.createdAt)`. -/
def sortLe (column order : Option (List Char)) (a b : Booking) : Bool :=
  match column with
  | some c =>
    if !c.isEmpty && bookingColumns.contains c then
      if order = some ("asc" : String).data then colLe c a b else colLe c b a
    else decide (b.createdAt ≤ a.createdAt)
  | none => decide (b.createdAt ≤ a.createdAt)

/-- Lines 106-112 and 145-151: the `createdAt` range condition.  It is
added only when both day values are present (an Invalid Date object is
still truthy); a comparison against an Invalid Date matches no row. -/
def dateCond (fromDay toDay : Option (Option Int)) (createdAt : Int) : Bool :=
  match fromDay, toDay with
  | some f, some t =>
    (match f with | some fv => decide (fv ≤ createdAt) | none => false)
      && (match t with | some tv => decide (createdAt ≤ tv) | none => false)
  | _, _ => true

/-- Lines 89-114: the `WHERE` clause of the page-slice query.  A missing
parameter contributes `undefined`, which drizzle's `and(...)` skips. -/
def itemsWhere (clinicId : Nat) (lastName : Option String) (types : List (List Char))
    (email : Option String) (fromDay toDay : Option (Option Int)) (b : Booking) : Bool :=
  decide (b.clinicId = clinicId)
    && (match lastName with | some ln => hasSub ln.data b.lastName.data | none => true)
    && (if 0 < types.length then types.contains b.type.data else true)
    && (match email with | some e => hasSub e.data b.email.data | none => true)
    && dateCond fromDay toDay b.createdAt

/-- Lines 128-153: the `WHERE` clause of the count query, duplicated in
the source rather than shared with the page-slice query. -/
def countWhere (clinicId : Nat) (lastName : Option String) (types : List (List Char))
    (email : Option String) (fromDay toDay : Option (Option Int)) (b : Booking) : Bool :=
  decide (b.clinicId = clinicId)
    && (match lastName with | some ln => hasSub ln.data b.lastName.data | none => true)
    && (if 0 < types.length then types.contains b.type.data else true)
    && (match email with | some e => hasSub e.data b.email.data | none => true)
    && dateCond fromDay toDay b.createdAt

/-- `LIMIT`/`OFFSET` applied to the ordered result set.  A `NaN` limit or
offset (`none`) makes the SQL statement fail, so no rows are produced;
a negative value likewise errors in the database, and `Int.toNat`
clamps it to an empty (for `limit`) or unshifted (for `offset`) slice. -/
def sqlSlice (limit offset : Option Int) (rows : List Booking) : List Booking :=
  match limit, offset with
  | some l, some o => (rows.drop o.toNat).take l.toNat
  | _, _ => []

/-- Lines 83-160: the transaction.  Returns the page slice and the count
of all rows matching the (duplicated) filter. -/
def dbTransaction (clinicId : Nat) (db : Db) (sp : SearchParams) : List Booking × Nat :=
  let limit := limitOf sp.per_page
  let offset := offsetOf sp.page limit
  let co := sortPair sp.sort
  let types := typesOf sp.type
  let fromDay := sp.fromParam.map jsDateParse
  let toDay := sp.toParam.map jsDateParse
  let items := sqlSlice limit offset
    (sortBy (sortLe co.1 co.2)
      (db.bookings.filter (itemsWhere clinicId sp.lastName types sp.email fromDay toDay)))
  let count :=
    (db.bookings.filter (countWhere clinicId sp.lastName types sp.email fromDay toDay)).length
  (items, count)

/-- Line 162: `pageCount = Math.ceil(count / limit)`.  `none` models a
non-finite result: a `NaN` limit gives `NaN`, a zero limit gives
`Infinity` (or `NaN` for `0 / 0`). -/
def jsCeilDiv (count : Nat) (limit : Option Int) : Option Int :=
  match limit with
  | some l => if l = 0 then none else some ⌈(count : ℚ) / (l : ℚ)⌉
  | none => none

/-- The observable outcome of one request. -/
inductive Outcome where
  | redirect : String → Outcome
  | notFound : Outcome
  | render : List Booking → Option Int → Nat → Outcome
deriving DecidableEq

/-- The rows handed to the table shell, when the page rendered. -/
def Outcome.itemsOf : Outcome → Option (List Booking)
  | .render items _ _ => some items
  | _ => none

/-- The page count handed to the table shell, when the page rendered. -/
def Outcome.pageCountOf : Outcome → Option (Option Int)
  | .render _ pc _ => some pc
  | _ => none

/-- The clinic id handed to the table shell, when the page rendered. -/
def Outcome.clinicIdOf : Outcome → Option Nat
  | .render _ _ cid => some cid
  | _ => none

/-- The whole request handler (lines 25-177): redirect when
unauthenticated, 404 when the user owns no clinic, otherwise render the
transaction's slice with `pageCount` and the clinic id. -/
def ClinicBookingsPage (db : Db) (user : Option User) (sp : SearchParams) : Outcome :=
  match user with
  | none => Outcome.redirect ("/logowanie")
  | some u =>
    match db.clinics.find? (fun c => c.userId == u.id) with
    | none => Outcome.notFound
    | some clinic =>
      let r := dbTransaction clinic.id db sp
      Outcome.render r.1 (jsCeilDiv r.2 (limitOf sp.per_page)) clinic.id

/-- The filter predicate written from the spec side, for comparison with
the queries: the conjunction of the tenant restriction and of each
predicate whose parameter was supplied (last-name substring, membership
of the row type in the dot-split type list, email substring, and the
inclusive creation-date range when both ends are present). -/
def matchesFilters (cid : Nat) (sp : SearchParams) (b : Booking) : Bool :=
  decide (b.clinicId = cid)
    && (match sp.lastName with | some ln => hasSub ln.data b.lastName.data | none => true)
    && (match sp.type with
        | some t => (splitOnChar '.' t.data).contains b.type.data
        | none => true)
    && (match sp.email with | some e => hasSub e.data b.email.data | none => true)
    && (match sp.fromParam, sp.toParam with
        | some f, some t2 => dateCond (some (jsDateParse f)) (some (jsDateParse t2)) b.createdAt
        | _, _ => true)

/-- Example tenant used in concrete checks. -/
def exClinic : Clinic := ⟨1, ("u1")⟩

/-- A second tenant, owned by another user. -/
def exOther : Clinic := ⟨2, ("u2")⟩

/-- A booking of the first tenant matching the spec's filter example. -/
def exRowA : Booking := ⟨1, 1, ("Kowalski"), ("jan@clinic.pl"), ("checkup"), 5⟩

/-- A booking of the first tenant with a different email domain. -/
def exRowB : Booking := ⟨2, 1, ("Kowalski"), ("anna@poczta.pl"), ("checkup"), 7⟩

/-- A booking of the second tenant. -/
def exRowC : Booking := ⟨3, 2, ("Kowalski"), ("jan@clinic.pl"), ("checkup"), 9⟩

/-- A booking of the first tenant with another last name and type. -/
def exRowD : Booking := ⟨4, 1, ("Nowak"), ("x@clinic.pl"), ("consultation"), 3⟩

/-- A two-tenant database with four bookings, for concrete checks. -/
def exDb : Db := ⟨[exClinic, exOther], [exRowA, exRowB, exRowC, exRowD]⟩

/-- The owner of the first tenant. -/
def exUser : User := ⟨("u1")⟩

/-! Helper lemmas about the sorting and slicing model. -/

theorem mem_insertLe {α : Type} (le : α → α → Bool) (a x : α) (l : List α) :
    x ∈ insertLe le a l ↔ x = a ∨ x ∈ l := by
  induction l with
  | nil => simp [insertLe]
  | cons b bs ih =>
    by_cases h : le a b = true
    · simp [insertLe, h]
    · simp only [insertLe, if_neg h, List.mem_cons, ih]
      tauto

theorem mem_sortBy {α : Type} (le : α → α → Bool) (x : α) (l : List α) :
    x ∈ sortBy le l ↔ x ∈ l := by
  induction l with
  | nil => simp [sortBy]
  | cons a as ih => simp [sortBy, mem_insertLe, ih]

theorem pairwise_insertLe {α : Type} (le : α → α → Bool)
    (total : ∀ x y, le x y = true ∨ le y x = true)
    (trans : ∀ x y z, le x y = true → le y z = true → le x z = true)
    (a : α) (l : List α) (hl : l.Pairwise (fun x y => le x y = true)) :
    (insertLe le a l).Pairwise (fun x y => le x y = true) := by
  induction l with
  | nil => simp [insertLe]
  | cons b bs ih =>
    rcases hl with _ | ⟨hb, hbs⟩
    by_cases h : le a b = true
    · simp only [insertLe, if_pos h]
      refine List.Pairwise.cons ?_ (List.Pairwise.cons hb hbs)
      intro x hx
      rcases List.mem_cons.mp hx with rfl | hx
      · exact h
      · exact trans a b x h (hb x hx)
    · simp only [insertLe, if_neg h]
      refine List.Pairwise.cons ?_ (ih hbs)
      intro x hx
      rcases (mem_insertLe le a x bs).mp hx with h1 | hx
      · rw [h1]
        rcases total a b with h2 | h2
        · exact absurd h2 h
        · exact h2
      · exact hb x hx

theorem pairwise_sortBy {α : Type} (le : α → α → Bool)
    (total : ∀ x y, le x y = true ∨ le y x = true)
    (trans : ∀ x y z, le x y = true → le y z = true → le x z = true)
    (l : List α) : (sortBy le l).Pairwise (fun x y => le x y = true) := by
  induction l with
  | nil => simp [sortBy]
  | cons a as ih => exact pairwise_insertLe le total trans a (sortBy le as) ih

theorem charListLe_total (x y : List Char) :
    charListLe x y = true ∨ charListLe y x = true := by
  induction x generalizing y with
  | nil => left; simp [charListLe]
  | cons a as ih =>
    cases y with
    | nil => right; simp [charListLe]
    | cons b bs =>
      by_cases h : a = b
      · subst h
        simpa [charListLe] using ih bs
      · rcases Ne.lt_or_lt h with hlt | hlt
        · left; simp [charListLe, h, hlt]
        · right; simp [charListLe, Ne.symm h, hlt]

theorem charListLe_trans (x y z : List Char) (h1 : charListLe x y = true)
    (h2 : charListLe y z = true) : charListLe x z = true := by
  induction x generalizing y z with
  | nil => simp [charListLe]
  | cons a as ih =>
    cases y with
    | nil => simp [charListLe] at h1
    | cons b bs =>
      cases z with
      | nil => simp [charListLe] at h2
      | cons c cs =>
        by_cases hab : a = b <;> by_cases hbc : b = c
        · subst hab; subst hbc
          simp only [charListLe, if_pos rfl] at h1 h2 ⊢
          exact ih bs cs h1 h2
        · subst hab
          simp only [charListLe, if_pos rfl] at h1
          simp only [charListLe, if_neg hbc, decide_eq_true_eq] at h2
          simp [charListLe, hbc, h2]
        · subst hbc
          simp only [charListLe, if_pos rfl] at h2
          simp only [charListLe, if_neg hab, decide_eq_true_eq] at h1
          simp [charListLe, hab, h1]
        · simp only [charListLe, if_neg hab, decide_eq_true_eq] at h1
          simp only [charListLe, if_neg hbc, decide_eq_true_eq] at h2
          have hac : a < c := lt_trans h1 h2
          simp [charListLe, ne_of_lt hac, hac]

theorem sqlSlice_sublist (limit offset : Option Int) (rows : List Booking) :
    (sqlSlice limit offset rows).Sublist rows := by
  cases limit with
  | none => simp [sqlSlice]
  | some l =>
    cases offset with
    | none => simp [sqlSlice]
    | some o =>
      exact (List.take_sublist _ _).trans (List.drop_sublist _ _)

theorem sqlSlice_length_le (l : Int) (off : Option Int) (rows : List Booking) :
    (sqlSlice (some l) off rows).length ≤ l.toNat := by
  cases off with
  | none => simp [sqlSlice]
  | some o => simp [sqlSlice]

theorem mem_sqlSlice_sortBy {limit offset : Option Int} {le : Booking → Booking → Bool}
    {pred : Booking → Bool} {rows : List Booking} {b : Booking}
    (h : b ∈ sqlSlice limit offset (sortBy le (rows.filter pred))) :
    pred b = true ∧ b ∈ rows := by
  have h1 : b ∈ sortBy le (rows.filter pred) :=
    (sqlSlice_sublist _ _ _).subset h
  have h2 : b ∈ rows.filter pred := (mem_sortBy _ _ _).mp h1
  exact ⟨List.of_mem_filter h2, List.mem_of_mem_filter h2⟩

theorem ceil_natCast_div (c l : Nat) (hl : 0 < l) :
    ⌈(c : ℚ) / (l : ℚ)⌉ = ((c + l - 1) / l : Nat) := by
  have hl0 : (0 : ℚ) < (l : ℚ) := by exact_mod_cast hl
  set d : Nat := (c + l - 1) / l with hd
  obtain ⟨m, hm0⟩ : ∃ m, m = l * d := ⟨_, rfl⟩
  have hm : m + (c + l - 1) % l = c + l - 1 := by
    rw [hm0]; exact Nat.div_add_mod _ _
  have hr : (c + l - 1) % l < l := Nat.mod_lt _ hl
  have hcle : c ≤ m := by omega
  have hlt : m < c + l := by omega
  have hm' : (m : ℚ) = (l : ℚ) * d := by exact_mod_cast hm0
  have hcle' : (c : ℚ) ≤ m := by exact_mod_cast hcle
  have hlt' : (m : ℚ) < c + l := by exact_mod_cast hlt
  rw [Int.ceil_eq_iff]
  constructor
  · rw [lt_div_iff₀ hl0]
    push_cast
    nlinarith [hm', hlt']
  · rw [div_le_iff₀ hl0]
    push_cast
    nlinarith [hm', hcle']

theorem run_render_inv (db : Db) (u : User) (sp : SearchParams)
    (items : List Booking)
    (hi : (ClinicBookingsPage db (some u) sp).itemsOf = some items) :
    ∃ clinic, db.clinics.find? (fun c => c.userId == u.id) = some clinic ∧
      (ClinicBookingsPage db (some u) sp).clinicIdOf = some clinic.id ∧
      (ClinicBookingsPage db (some u) sp).pageCountOf =
        some (jsCeilDiv (dbTransaction clinic.id db sp).2 (limitOf sp.per_page)) ∧
      items = (dbTransaction clinic.id db sp).1 := by
  simp only [ClinicBookingsPage] at hi ⊢
  cases h : db.clinics.find? (fun c => c.userId == u.id) with
  | none => rw [h] at hi; simp [Outcome.itemsOf] at hi
  | some clinic =>
    rw [h] at hi
    simp only [Outcome.itemsOf, Option.some.injEq] at hi
    exact ⟨clinic, rfl, rfl, rfl, hi.symm⟩

theorem splitOnChar_length_pos (sep : Char) (cs : List Char) :
    0 < (splitOnChar sep cs).length := by
  induction cs with
  | nil => simp [splitOnChar]
  | cons c rest ih =>
    by_cases h : c = sep
    · simp [splitOnChar, h]
    · simp only [splitOnChar, if_neg h]
      cases hr : splitOnChar sep rest with
      | nil => simp
      | cons g gs => simp

theorem itemsWhere_clinicId {cid : Nat} {ln : Option String} {types : List (List Char)}
    {em : Option String} {fd td : Option (Option Int)} {b : Booking}
    (h : itemsWhere cid ln types em fd td b = true) : b.clinicId = cid := by
  unfold itemsWhere at h
  simp only [Bool.and_eq_true, decide_eq_true_eq] at h
  exact h.1.1.1.1

theorem countWhere_eq_itemsWhere (cid : Nat) (ln : Option String) (types : List (List Char))
    (em : Option String) (fd td : Option (Option Int)) (b : Booking) :
    countWhere cid ln types em fd td b = itemsWhere cid ln types em fd td b := rfl

theorem itemsWhere_eq_matchesFilters (cid : Nat) (sp : SearchParams) (b : Booking) :
    itemsWhere cid sp.lastName (typesOf sp.type) sp.email
      (sp.fromParam.map jsDateParse) (sp.toParam.map jsDateParse) b =
    matchesFilters cid sp b := by
  unfold itemsWhere matchesFilters
  congr 1
  · congr 1
    congr 1
    cases ht : sp.type with
    | none => rfl
    | some t =>
      simp only [typesOf]
      rw [if_pos (splitOnChar_length_pos '.' t.data)]
  · cases sp.fromParam <;> cases sp.toParam <;> rfl

theorem dbTransaction_items_pairwise (cid : Nat) (db : Db) (sp : SearchParams)
    (total : ∀ x y, sortLe (sortPair sp.sort).1 (sortPair sp.sort).2 x y = true ∨
      sortLe (sortPair sp.sort).1 (sortPair sp.sort).2 y x = true)
    (trans : ∀ x y z, sortLe (sortPair sp.sort).1 (sortPair sp.sort).2 x y = true →
      sortLe (sortPair sp.sort).1 (sortPair sp.sort).2 y z = true →
      sortLe (sortPair sp.sort).1 (sortPair sp.sort).2 x z = true) :
    ((dbTransaction cid db sp).1).Pairwise
      (fun a b => sortLe (sortPair sp.sort).1 (sortPair sp.sort).2 a b = true) := by
  simp only [dbTransaction]
  exact List.Pairwise.sublist (sqlSlice_sublist _ _ _)
    (pairwise_sortBy _ total trans _)

theorem dbTransaction_mem_filter (cid : Nat) (db : Db) (sp : SearchParams) (b : Booking)
    (h : b ∈ (dbTransaction cid db sp).1) :
    itemsWhere cid sp.lastName (typesOf sp.type) sp.email
      (sp.fromParam.map jsDateParse) (sp.toParam.map jsDateParse) b = true ∧
    b ∈ db.bookings := by
  simp only [dbTransaction] at h
  exact mem_sqlSlice_sortBy h

theorem filter_absorb {α : Type} (l : List α) (p q : α → Bool)
    (h : ∀ b, q b = true → p b = true) :
    (l.filter p).filter q = l.filter q := by
  induction l with
  | nil => rfl
  | cons a as ih =>
    cases hp : p a with
    | true =>
      cases hq : q a with
      | true => simp [List.filter_cons, hp, hq, ih]
      | false => simp [List.filter_cons, hp, hq, ih]
    | false =>
      cases hq : q a with
      | true => exact absurd (h a hq) (by simp [hp])
      | false => simp [List.filter_cons, hp, hq, ih]

/-! The claims. -/

/-- C1: whenever the page renders, there is a clinic row found for the
authenticated user's id; every rendered booking carries that clinic's id,
and the count counts only rows of that clinic (the count over the
clinic-restricted table equals the count actually computed), regardless
of the query parameters. -/
theorem tenant_isolation (db : Db) (u : User) (sp : SearchParams)
    (items : List Booking) (cid : Nat)
    (hi : (ClinicBookingsPage db (some u) sp).itemsOf = some items)
    (hc : (ClinicBookingsPage db (some u) sp).clinicIdOf = some cid) :
    ∃ clinic ∈ db.clinics, clinic.userId = u.id ∧ cid = clinic.id ∧
      (∀ b ∈ items, b.clinicId = clinic.id) ∧
      (dbTransaction cid db sp).2 =
        ((db.bookings.filter (fun b => decide (b.clinicId = cid))).filter
          (countWhere cid sp.lastName (typesOf sp.type) sp.email
            (sp.fromParam.map jsDateParse) (sp.toParam.map jsDateParse))).length := by
  obtain ⟨clinic, hfind, hcid, hpc, hitems⟩ := run_render_inv db u sp items hi
  have hmem : clinic ∈ db.clinics := List.mem_of_find?_eq_some hfind
  have huid : clinic.userId = u.id := by
    have := List.find?_some hfind
    simpa using this
  have hcc : cid = clinic.id := by
    rw [hcid] at hc
    exact (Option.some.inj hc).symm
  subst hcc
  refine ⟨clinic, hmem, huid, rfl, ?_, ?_⟩
  · intro b hb
    rw [hitems] at hb
    exact itemsWhere_clinicId (dbTransaction_mem_filter clinic.id db sp b hb).1
  · rw [filter_absorb]
    · rfl
    · intro b hb
      rw [countWhere_eq_itemsWhere] at hb
      simpa using itemsWhere_clinicId hb

/-- C1 witness: a concrete two-tenant database in which only the first
tenant's row is returned and counted. -/
theorem tenant_isolation_witness :
    ((ClinicBookingsPage exDb (some exUser) {}).itemsOf =
        some [exRowB, exRowA, exRowD] ∧
      (ClinicBookingsPage exDb (some exUser) {}).clinicIdOf = some 1) ∧
    (∃ clinic ∈ exDb.clinics, clinic.userId = exUser.id ∧ 1 = clinic.id ∧
      (∀ b ∈ [exRowB, exRowA, exRowD], b.clinicId = clinic.id) ∧
      (dbTransaction 1 exDb {}).2 =
        ((exDb.bookings.filter (fun b => decide (b.clinicId = 1))).filter
          (countWhere 1 none (typesOf none) none
            (Option.map jsDateParse none) (Option.map jsDateParse none))).length) :=
  ⟨⟨by decide, by decide⟩,
    tenant_isolation exDb exUser {} [exRowB, exRowA, exRowD] 1 (by decide) (by decide)⟩

/-- C2: every rendered row satisfies the conjunction of the supplied
filter predicates (tenant id, last-name substring, type membership,
email substring, and, when both ends are supplied, the creation-date
range), and the count equals the number of rows of the whole table
satisfying that same conjunction. -/
theorem filter_conjunction_exact (db : Db) (u : User) (sp : SearchParams)
    (items : List Booking) (cid : Nat)
    (hi : (ClinicBookingsPage db (some u) sp).itemsOf = some items)
    (hc : (ClinicBookingsPage db (some u) sp).clinicIdOf = some cid) :
    (∀ b ∈ items, matchesFilters cid sp b = true) ∧
    (dbTransaction cid db sp).2 =
      (db.bookings.filter (matchesFilters cid sp)).length := by
  obtain ⟨clinic, hfind, hcid, hpc, hitems⟩ := run_render_inv db u sp items hi
  have hcc : cid = clinic.id := by
    rw [hcid] at hc
    exact (Option.some.inj hc).symm
  subst hcc
  constructor
  · intro b hb
    rw [hitems] at hb
    have hw := (dbTransaction_mem_filter clinic.id db sp b hb).1
    rwa [itemsWhere_eq_matchesFilters] at hw
  · have hct : (dbTransaction clinic.id db sp).2 =
        (db.bookings.filter (countWhere clinic.id sp.lastName (typesOf sp.type) sp.email
          (sp.fromParam.map jsDateParse) (sp.toParam.map jsDateParse))).length := rfl
    rw [hct]
    congr 1
    apply List.filter_congr
    intro b _
    rw [countWhere_eq_itemsWhere, itemsWhere_eq_matchesFilters]

/-- C2 witness: the spec's example — last name `"Kowal"`, types
`"consultation.checkup"`, email containing `"@clinic"` — returns and
counts exactly the one matching row of the tenant. -/
theorem filter_conjunction_exact_witness :
    ((ClinicBookingsPage exDb (some exUser)
        { lastName := some ("Kowal"), type := some ("consultation.checkup"),
          email := some ("@clinic") }).itemsOf = some [exRowA] ∧
      (ClinicBookingsPage exDb (some exUser)
        { lastName := some ("Kowal"), type := some ("consultation.checkup"),
          email := some ("@clinic") }).clinicIdOf = some 1) ∧
    ((∀ b ∈ [exRowA],
        matchesFilters 1
          { lastName := some ("Kowal"), type := some ("consultation.checkup"),
            email := some ("@clinic") } b = true) ∧
      (dbTransaction 1 exDb
          { lastName := some ("Kowal"), type := some ("consultation.checkup"),
            email := some ("@clinic") }).2 =
        (exDb.bookings.filter (matchesFilters 1
          { lastName := some ("Kowal"), type := some ("consultation.checkup"),
            email := some ("@clinic") })).length) :=
  ⟨⟨by decide, by decide⟩,
    filter_conjunction_exact exDb exUser
      { lastName := some ("Kowal"), type := some ("consultation.checkup"),
        email := some ("@clinic") } [exRowA] 1 (by decide) (by decide)⟩

/-- C3: an authenticated user owning no clinic row gets the not-found
outcome; in particular the request never renders a page. -/
theorem no_clinic_notFound (db : Db) (u : User) (sp : SearchParams)
    (h : ∀ c ∈ db.clinics, c.userId ≠ u.id) :
    ClinicBookingsPage db (some u) sp = Outcome.notFound ∧
    ∀ items pc cid, ClinicBookingsPage db (some u) sp ≠ Outcome.render items pc cid := by
  have hfind : db.clinics.find? (fun c => c.userId == u.id) = none := by
    rw [List.find?_eq_none]
    intro c hcmem
    simpa using h c hcmem
  constructor
  · simp [ClinicBookingsPage, hfind]
  · intro items pc cid
    simp [ClinicBookingsPage, hfind]

/-- C3 witness: a user id owning neither clinic of the database. -/
theorem no_clinic_notFound_witness :
    (∀ c ∈ exDb.clinics, c.userId ≠ ("u3" : String)) ∧
    ClinicBookingsPage exDb (some ⟨("u3")⟩) {} = Outcome.notFound :=
  ⟨by decide, (no_clinic_notFound exDb ⟨("u3")⟩ {} (by decide)).1⟩

/-- C4: for a positive limit, `pageCount` is the ceiling of
`count / limit` — equal to the integer formula `(count + limit - 1) / limit`
— and `count = 25`, `limit = 10` give `pageCount = 3`. -/
theorem pageCount_ceil (c l : Nat) (hl : 0 < l) :
    jsCeilDiv c (some (l : Int)) = some ⌈(c : ℚ) / (l : ℚ)⌉ ∧
    jsCeilDiv c (some (l : Int)) = some (((c + l - 1) / l : Nat) : Int) ∧
    jsCeilDiv 25 (some 10) = some 3 := by
  have hlz : (l : Int) ≠ 0 := by
    simpa using Nat.pos_iff_ne_zero.mp hl
  refine ⟨?_, ?_, ?_⟩
  · simp [jsCeilDiv, hlz]
  · simp only [jsCeilDiv, if_neg hlz, Option.some.injEq]
    rw [show (((l : Int)) : ℚ) = (l : ℚ) by push_cast; rfl]
    exact_mod_cast ceil_natCast_div c l hl
  · simp only [jsCeilDiv, if_neg (show (10 : Int) ≠ 0 by norm_num)]
    norm_num [Int.ceil_eq_iff]

/-- C4 witness: the spec's instance, `count = 25`, `limit = 10`. -/
theorem pageCount_ceil_witness :
    0 < 10 ∧
    (jsCeilDiv 25 (some ((10 : Nat) : Int)) = some ⌈(25 : ℚ) / ((10 : Nat) : ℚ)⌉ ∧
      jsCeilDiv 25 (some ((10 : Nat) : Int)) = some (((25 + 10 - 1) / 10 : Nat) : Int) ∧
      jsCeilDiv 25 (some 10) = some 3) :=
  ⟨by decide, pageCount_ceil 25 10 (by decide)⟩

/-- C5: a page parsing to an integer at least 1 together with a per-page
parsing to a positive integer gives offset `(page - 1) * per_page`; an
absent page, or a page parsing to a non-positive integer, gives offset 0. -/
theorem offset_formula (ps pp : String) (p l : Int)
    (hp : jsParseInt ps = some p) (hp1 : 1 ≤ p)
    (hl : jsParseInt pp = some l) (_hl0 : 0 < l) :
    offsetOf (some ps) (limitOf (some pp)) = some ((p - 1) * l) ∧
    (∀ lim, offsetOf none lim = some 0) ∧
    (∀ qs q lim, jsParseInt qs = some q → q ≤ 0 → offsetOf (some qs) lim = some 0) := by
  refine ⟨?_, fun lim => rfl, ?_⟩
  · have hp0 : (0 : Int) < p := lt_of_lt_of_le one_pos hp1
    simp [offsetOf, limitOf, hp, hl, hp0]
  · intro qs q lim hq hq0
    simp [offsetOf, hq, not_lt.mpr hq0]

/-- C5 witness: `page = "3"`, `per_page = "10"` give offset 20. -/
theorem offset_formula_witness :
    (jsParseInt ("3") = some 3 ∧ (1 : Int) ≤ 3 ∧
      jsParseInt ("10") = some 10 ∧ (0 : Int) < 10) ∧
    (offsetOf (some ("3")) (limitOf (some ("10"))) = some ((3 - 1) * 10) ∧
      (∀ lim, offsetOf none lim = some 0) ∧
      (∀ qs q lim, jsParseInt qs = some q → q ≤ 0 → offsetOf (some qs) lim = some 0)) :=
  ⟨⟨by decide, by decide, by decide, by decide⟩,
    offset_formula ("3") ("10") 3 10 (by decide) (by decide) (by decide) (by decide)⟩

/-- C6: with sort token `"lastName.asc"` the rendered rows are in
ascending last-name order; with a token whose column part is not a
recognized booking column the rows are in descending creation-time
order. -/
theorem sort_order (db : Db) (u : User) (sp : SearchParams) (items : List Booking)
    (hi : (ClinicBookingsPage db (some u) sp).itemsOf = some items) :
    (sp.sort = some ("lastName.asc") →
      items.Pairwise (fun a b => charListLe a.lastName.data b.lastName.data = true)) ∧
    (∀ s c, sp.sort = some s → (splitOnChar '.' s.data)[0]? = some c →
      c ∉ bookingColumns →
      items.Pairwise (fun a b => b.createdAt ≤ a.createdAt)) := by
  obtain ⟨clinic, hfind, hcid, hpc, hitems⟩ := run_render_inv db u sp items hi
  constructor
  · intro hsort
    have hco : sortPair sp.sort =
        (some (("lastName" : String).data), some (("asc" : String).data)) := by
      rw [hsort]; decide
    have hfun : ∀ a b : Booking, sortLe (sortPair sp.sort).1 (sortPair sp.sort).2 a b =
        charListLe a.lastName.data b.lastName.data := by
      intro a b
      rw [hco]
      rfl
    rw [hitems]
    refine List.Pairwise.imp ?_
      (dbTransaction_items_pairwise clinic.id db sp ?_ ?_)
    · intro a b hab
      rwa [hfun] at hab
    · intro x y
      rw [hfun, hfun]
      exact charListLe_total _ _
    · intro x y z h1 h2
      rw [hfun] at h1 h2 ⊢
      exact charListLe_trans _ _ _ h1 h2
  · intro s c hsort hc0 hnotin
    have hcontains : bookingColumns.contains c = false := by
      cases hx : bookingColumns.contains c
      · rfl
      · exact absurd (List.mem_of_elem_eq_true hx) hnotin
    have hco1 : (sortPair sp.sort).1 = some c := by
      simp [sortPair, hsort, hc0]
    have hfun : ∀ a b : Booking, sortLe (sortPair sp.sort).1 (sortPair sp.sort).2 a b =
        decide (b.createdAt ≤ a.createdAt) := by
      intro a b
      rw [hco1]
      simp only [sortLe]
      rw [hcontains]
      simp
    rw [hitems]
    refine List.Pairwise.imp ?_
      (dbTransaction_items_pairwise clinic.id db sp ?_ ?_)
    · intro a b hab
      rw [hfun] at hab
      exact of_decide_eq_true hab
    · intro x y
      rw [hfun, hfun]
      rcases Int.le_total y.createdAt x.createdAt with h | h
      · left; simpa using h
      · right; simpa using h
    · intro x y z h1 h2
      rw [hfun] at h1 h2 ⊢
      simp only [decide_eq_true_eq] at h1 h2 ⊢
      exact le_trans h2 h1

/-- C6 witness: sorting the example tenant's three rows by
`"lastName.asc"` yields ascending last names. -/
theorem sort_order_witness :
    (ClinicBookingsPage exDb (some exUser) { sort := some ("lastName.asc") }).itemsOf =
        some [exRowA, exRowB, exRowD] ∧
    List.Pairwise (fun a b : Booking => charListLe a.lastName.data b.lastName.data = true)
      [exRowA, exRowB, exRowD] :=
  ⟨by decide, (sort_order exDb exUser { sort := some ("lastName.asc") }
      [exRowA, exRowB, exRowD] (by decide)).1 rfl⟩

/-- C7: the page-slice query and the count query apply the same filter
predicate, so the count counts exactly the rows the slice is drawn
from. -/
theorem duplicated_filters_agree (cid : Nat) (ln : Option String)
    (types : List (List Char)) (em : Option String)
    (fd td : Option (Option Int)) (b : Booking) :
    itemsWhere cid ln types em fd td b = countWhere cid ln types em fd td b ∧
    ∀ (db : Db) (sp : SearchParams), (dbTransaction cid db sp).2 =
      (db.bookings.filter (itemsWhere cid sp.lastName (typesOf sp.type) sp.email
        (sp.fromParam.map jsDateParse) (sp.toParam.map jsDateParse))).length :=
  ⟨rfl, fun _ _ => rfl⟩

/-- C8 counterexample: a non-numeric page with default per-page gives
offset 0, and a non-numeric per-page with absent page also gives offset
0 — not a NaN-based offset — refuting the claim as stated. -/
theorem offset_nan_counterexample :
    jsParseInt ("abc") = none ∧
    offsetOf (some ("abc")) (limitOf none) = some 0 ∧
    offsetOf none (limitOf (some ("abc"))) = some 0 := by decide

/-- C8 (amended): a non-numeric per-page together with a page parsing to
a positive integer propagates the parseInt NaN into the offset; a
non-numeric page is swallowed by the `parseInt(page) > 0` guard and
gives offset 0. -/
theorem offset_nan_amended (ps pp : String) (p : Int)
    (hpp : jsParseInt pp = none) (hp : jsParseInt ps = some p) (h0 : 0 < p) :
    offsetOf (some ps) (limitOf (some pp)) = none ∧
    (∀ qs lim, jsParseInt qs = none → offsetOf (some qs) lim = some 0) := by
  constructor
  · simp [offsetOf, limitOf, hp, hpp, h0]
  · intro qs lim hq
    simp [offsetOf, hq]

/-- C8 witness: `page = "2"` with `per_page = "abc"` gives a NaN offset. -/
theorem offset_nan_amended_witness :
    (jsParseInt ("abc") = none ∧ jsParseInt ("2") = some 2 ∧ (0 : Int) < 2) ∧
    (offsetOf (some ("2")) (limitOf (some ("abc"))) = none ∧
      (∀ qs lim, jsParseInt qs = none → offsetOf (some qs) lim = some 0)) :=
  ⟨⟨by decide, by decide, by decide⟩,
    offset_nan_amended ("2") ("abc") 2 (by decide) (by decide) (by decide)⟩

/-- C9: with `per_page` absent the limit is 10: at most 10 rows are
rendered and the page count divides the transaction count by 10. -/
theorem default_limit (db : Db) (u : User) (sp : SearchParams)
    (items : List Booking) (cid : Nat)
    (hpp : sp.per_page = none)
    (hi : (ClinicBookingsPage db (some u) sp).itemsOf = some items)
    (hc : (ClinicBookingsPage db (some u) sp).clinicIdOf = some cid) :
    limitOf sp.per_page = some 10 ∧
    items.length ≤ 10 ∧
    (ClinicBookingsPage db (some u) sp).pageCountOf =
      some (jsCeilDiv (dbTransaction cid db sp).2 (some 10)) := by
  obtain ⟨clinic, hfind, hcid, hpc, hitems⟩ := run_render_inv db u sp items hi
  have hcc : cid = clinic.id := by
    rw [hcid] at hc
    exact (Option.some.inj hc).symm
  subst hcc
  have hlim : limitOf sp.per_page = some 10 := by rw [hpp]; rfl
  refine ⟨hlim, ?_, ?_⟩
  · rw [hitems]
    have h1 : (dbTransaction clinic.id db sp).1 =
        sqlSlice (limitOf sp.per_page) (offsetOf sp.page (limitOf sp.per_page))
          (sortBy (sortLe (sortPair sp.sort).1 (sortPair sp.sort).2)
            (db.bookings.filter (itemsWhere clinic.id sp.lastName (typesOf sp.type) sp.email
              (sp.fromParam.map jsDateParse) (sp.toParam.map jsDateParse)))) := rfl
    rw [h1, hlim]
    simpa using sqlSlice_length_le 10 _ _
  · rw [hlim] at hpc
    exact hpc

/-- C9 witness: the example database with all parameters absent renders
three rows under the default page size of 10. -/
theorem default_limit_witness :
    (({} : SearchParams).per_page = none ∧
      (ClinicBookingsPage exDb (some exUser) {}).itemsOf = some [exRowB, exRowA, exRowD] ∧
      (ClinicBookingsPage exDb (some exUser) {}).clinicIdOf = some 1) ∧
    (limitOf ({} : SearchParams).per_page = some 10 ∧
      ([exRowB, exRowA, exRowD] : List Booking).length ≤ 10 ∧
      (ClinicBookingsPage exDb (some exUser) {}).pageCountOf =
        some (jsCeilDiv (dbTransaction 1 exDb {}).2 (some 10))) :=
  ⟨⟨rfl, by decide, by decide⟩,
    default_limit exDb exUser {} [exRowB, exRowA, exRowD] 1 rfl (by decide) (by decide)⟩

/-- C10: the creation-date range condition is applied only when both the
`from` and the `to` parameter are present: supplying exactly one of them
leaves both the page-slice query and the count query identical to the
queries without any date parameter. -/
theorem one_sided_date_ignored (cid : Nat) (db : Db) (sp : SearchParams) (s : String) :
    (sp.toParam = none →
      dbTransaction cid db { sp with fromParam := some s } =
        dbTransaction cid db { sp with fromParam := none }) ∧
    (sp.fromParam = none →
      dbTransaction cid db { sp with toParam := some s } =
        dbTransaction cid db { sp with toParam := none }) := by
  obtain ⟨pg, pp, so, fp, tp, ln, ty, da, ti, sl, em⟩ := sp
  constructor
  · intro h
    cases tp with
    | none => rfl
    | some x => exact Option.noConfusion h
  · intro h
    cases fp with
    | none => rfl
    | some x => exact Option.noConfusion h

/-- C10 witness: adding only a `from` date to an otherwise empty query
leaves the transaction result unchanged. -/
theorem one_sided_date_ignored_witness :
    ({} : SearchParams).toParam = none ∧
    dbTransaction 1 exDb { ({} : SearchParams) with fromParam := some ("2024-01-01") } =
      dbTransaction 1 exDb { ({} : SearchParams) with fromParam := none } :=
  ⟨rfl, (one_sided_date_ignored 1 exDb {} ("2024-01-01")).1 rfl⟩
